import Mathlib

/-!
A shallow embedding of `src/CFTest.py` (the Cloudflare IP scan-and-report
script) together with theorems checking the design-spec claims against it.

Conventions of the embedding:
* Python strings are Lean `String`s; character-level processing is done on
  `String.data` (`List Char`) with structurally recursive helpers so that all
  definitions evaluate inside the kernel.
* The single HTTP GET a probe performs is abstracted as a `NetResult` value:
  `failure` stands for any exception path (connection refused, timeout,
  non-2xx status via `raise_for_status`, body read error), `success body`
  for a 200 response whose text is `body`.
* Python `try/except` blocks that swallow exceptions become total functions
  returning `Option`/plain values; `sys.exit` paths become `Except` errors.
* `list.sort` (Timsort, stable) is embedded as `List.insertionSort`, which is
  also stable, so it computes the same output for the total preorder keys
  used here; `list(set(..))` (order-unspecified deduplication) is embedded as
  `List.dedup`, which has the same element set and no duplicates.
-/

/-- Mirrors Python `str.split(sep)` for a one-character separator, on the
character list of the string: `"".split(c) = [""]`, separators at the ends
produce empty pieces. -/
def splitCh (sep : Char) : List Char → List (List Char)
  | [] => [[]]
  | c :: cs =>
    if c = sep then [] :: splitCh sep cs
    else
      match splitCh sep cs with
      | [] => [[c]]
      | g :: gs => (c :: g) :: gs

/-- Mirrors Python `str.startswith` on character lists. -/
def beginsWith : List Char → List Char → Bool
  | [], _ => true
  | _ :: _, [] => false
  | p :: ps, c :: cs => p = c && beginsWith ps cs

/-- Mirrors Python `str.strip()`: drop whitespace from both ends. -/
def pyStrip (l : List Char) : List Char :=
  ((l.dropWhile Char.isWhitespace).reverse.dropWhile Char.isWhitespace).reverse

/-- Numeric value of a list of decimal digit characters (validity of the
digits is checked separately by the callers). -/
def digitsToNat (l : List Char) : Nat :=
  l.foldl (fun a c => a * 10 + (c.toNat - 48)) 0

/-- Embeds CPython `ipaddress`'s parsing of one dotted-quad octet: decimal
digits only, at most three of them, no leading zero, value at most 255. -/
def parseOctet (s : List Char) : Option Nat :=
  if s = [] then none
  else if ¬ s.all Char.isDigit then none
  else if 1 < s.length ∧ s.headD '0' = '0' then none
  else if 3 < s.length then none
  else
    let n := digitsToNat s
    if n ≤ 255 then some n else none

/-- Embeds `ipaddress.IPv4Address(s)`: four octets separated by dots; the
result is the 32-bit numeric value of the address.  `none` models the
`ValueError` raised on malformed input. -/
def parseIPv4 (s : String) : Option Nat :=
  match splitCh '.' s.data with
  | [a, b, c, d] =>
    match parseOctet a, parseOctet b, parseOctet c, parseOctet d with
    | some x, some y, some z, some w => some (((x * 256 + y) * 256 + z) * 256 + w)
    | _, _, _, _ => none
  | _ => none

/-- Embeds `ipaddress`'s parsing of a prefix length string: decimal digits,
value at most 32. -/
def parsePrefixLen (s : List Char) : Option Nat :=
  if s = [] then none
  else if ¬ s.all Char.isDigit then none
  else
    let n := digitsToNat s
    if n ≤ 32 then some n else none

/-- Embeds `ipaddress.ip_network(s, strict=True)` restricted to the
prefix-notation IPv4 grammar the upstream range list uses: `A.B.C.D` or
`A.B.C.D/P`.  `strict=True` means the host bits must be zero; a violation is
a `ValueError`, modelled as `none`.  The result is
(network address value, prefix length). -/
def parseNetwork (s : String) : Option (Nat × Nat) :=
  match splitCh '/' s.data with
  | [addr] => (parseIPv4 ⟨addr⟩).map (fun a => (a, 32))
  | [addr, p] =>
    match parseIPv4 ⟨addr⟩, parsePrefixLen p with
    | some a, some pl => if a % 2 ^ (32 - pl) = 0 then some (a, pl) else none
    | _, _ => none
  | _ => none

/-- Renders a 32-bit address value as a dotted-quad string, as
`str(ipaddress.IPv4Address(n))` does for iteration over a network. -/
def numToDotted (n : Nat) : String :=
  Nat.repr (n / 16777216 % 256) ++ "." ++ Nat.repr (n / 65536 % 256) ++ "." ++
    Nat.repr (n / 256 % 256) ++ "." ++ Nat.repr (n % 256)

/-- Embeds `expand_ip_range` (CFTest.py lines 39-52): parse the CIDR text and
list every address the network contains (`[str(ip) for ip in network]`); a
`ValueError` (or a non-IPv4 network) is logged and yields `[]`. -/
def expand_ip_range (s : String) : List String :=
  match parseNetwork s with
  | none => []
  | some (a, pl) => (List.range (2 ^ (32 - pl))).map (fun i => numToDotted (a + i))

/-- Embeds main's candidate-pool construction (lines 114-120): concatenate the
expansions of all ranges, then `all_ips = list(set(all_ips))`.  `list(set ..)`
yields the same element set with no duplicates in an unspecified order;
`List.dedup` is the deterministic representative used here. -/
def all_ips (ip_ranges : List String) : List String :=
  (ip_ranges.flatMap expand_ip_range).dedup

/-- Outcome of the single `requests.get` a probe performs: `failure` is any
exception path (connection refused, timeout, `raise_for_status` on a bad
status, unreadable body); `success body` is a good response with text
`body`. -/
inductive NetResult where
  | failure
  | success (body : String)
deriving DecidableEq

/-- Embeds the colo-extraction loop of `check_ip_location` (lines 74-78):
the first line of the body starting with `colo=` contributes
`line.split('=')[1].strip()`; `none` models Python's `colo = None` when no
line matches.  (The inner `none` branch is unreachable: a line beginning with
`colo=` always splits into at least two pieces.) -/
def extractColo (body : String) : Option String :=
  match (splitCh '\n' body.data).find? (fun l => beginsWith "colo=".data l) with
  | none => none
  | some line =>
    match (splitCh '=' line).get? 1 with
    | none => none
    | some v => some ⟨pyStrip v⟩

/-- Python truthiness of the `target_colos` argument (`None` or a list):
`if target_colos:` is true exactly when it is a non-empty list. -/
def tsTruthy : Option (List String) → Bool
  | none => false
  | some l => !l.isEmpty

/-- Membership test `colo in target_colos` where `colo` may be Python `None`
(no colo line found): `None` is never an element of a list of strings. -/
def colo_in_targets (colo : Option String) (targets : List String) : Bool :=
  match colo with
  | some c => targets.contains c
  | none => false

/-- Embeds `check_ip_location` (lines 54-86), instrumented with a second
component recording whether the network request was issued.  `stop` is the
state of `stop_event` for the duration of the call (both `is_set()` reads,
lines 56 and 67, see the same value in this sequential model).  An invalid
address prints a diagnostic and returns `None`; any exception in the request
block returns `None`. -/
def check_ip_location_traced (ip : String) (target_colos : Option (List String))
    (stop : Bool) (net : NetResult) : Option (String × String) × Bool :=
  if stop then (none, false)
  else if (parseIPv4 ip).isNone then (none, false)
  else if stop then (none, false)
  else
    match net with
    | NetResult.failure => (none, true)
    | NetResult.success body =>
      if tsTruthy target_colos && !(colo_in_targets (extractColo body) (target_colos.getD [])) then
        (none, true)
      else
        match extractColo body with
        | some c => if c = "" then (none, true) else (some (ip, c), true)
        | none => (none, true)

/-- The probe's return value alone (what `future.result()` yields in main). -/
def check_ip_location (ip : String) (target_colos : Option (List String))
    (stop : Bool) (net : NetResult) : Option (String × String) :=
  (check_ip_location_traced ip target_colos stop net).1

/-- Mirrors Python `str.upper()` for the ASCII strings involved here. -/
def upperStr (s : String) : String :=
  ⟨s.data.map Char.toUpper⟩

/-- The shared scan state of main's collection loop (lines 139-167):
the completed-probe count, the completion-ordered match list, and the
`stop_event` flag. -/
structure ScanSt where
  completed : Nat
  matched : List (String × String)
  stopped : Bool
deriving DecidableEq

/-- One iteration of main's completion-processing loop for a single finished
unit of work (lines 146-164), sequentialized in completion order.  Once the
stop flag is set main has broken out of the loop and pending futures are
cancelled, so a later unit changes nothing: it is neither counted as
completed nor recorded as an outcome.  A unit processed before the flag is
set runs the probe (with the current flag value), is counted as completed,
and its result, if truthy, is appended; reaching the quota sets the flag. -/
def scanStep (targets : Option (List String)) (quota : Nat) (st : ScanSt)
    (p : String × NetResult) : ScanSt :=
  if st.stopped then st
  else
    match check_ip_location p.1 targets st.stopped p.2 with
    | none => ⟨st.completed + 1, st.matched, st.stopped⟩
    | some m =>
      if quota ≤ (st.matched ++ [m]).length then
        ⟨st.completed + 1, st.matched ++ [m], true⟩
      else
        ⟨st.completed + 1, st.matched ++ [m], false⟩

/-- The whole collection loop over the units in completion order. -/
def runScan (probes : List (String × NetResult)) (targets : Option (List String))
    (quota : Nat) : ScanSt :=
  probes.foldl (scanStep targets quota) ⟨0, [], false⟩

/-- Numeric sort key of a match entry, `ipaddress.IPv4Address(x[0])`
(line 173); entries reaching the sort hold addresses validated by
`check_ip_location`, for which `parseIPv4` is `some`. -/
def ipKey (s : String) : Nat :=
  (parseIPv4 s).getD 0

/-- The comparison `matched_results.sort(key=...)` sorts by. -/
def ipPairLe (a b : String × String) : Prop :=
  ipKey a.1 ≤ ipKey b.1

instance : DecidableRel ipPairLe := fun a b => Nat.decLe _ _

instance : IsTotal (String × String) ipPairLe := ⟨fun a b => Nat.le_total _ _⟩

instance : IsTrans (String × String) ipPairLe := ⟨fun _ _ _ => Nat.le_trans⟩

/-- Embeds the overshoot truncation (lines 169-170):
`if len(matched_results) > max_count: matched_results = matched_results[:max_count]`. -/
def truncateMatches (l : List (String × String)) (quota : Nat) : List (String × String) :=
  if quota < l.length then l.take quota else l

/-- Embeds `matched_results.sort(key=lambda x: ipaddress.IPv4Address(x[0]))`
(line 173); Timsort is stable, as is `insertionSort`. -/
def sortByIp (l : List (String × String)) : List (String × String) :=
  List.insertionSort ipPairLe l

/-- The aggregation step: truncate to the quota, then sort by address. -/
def aggregate (l : List (String × String)) (quota : Nat) : List (String × String) :=
  sortByIp (truncateMatches l quota)

/-- The per-colo group (lines 176-178): `colo_groups[colo]` holds the
addresses with that colo, in the order of the (sorted) match list. -/
def groupIps (c : String) (l : List (String × String)) : List String :=
  (l.filter (fun p => p.2 == c)).map Prod.fst

/-- The distinct colo codes, in first-appearance order (the keys of the
`defaultdict`). -/
def distinct_colos (l : List (String × String)) : List String :=
  (l.map Prod.snd).dedup

/-- Embeds `sorted(colo_groups.keys())` (line 182): the distinct codes in
lexicographic order. -/
def sorted_colos (l : List (String × String)) : List String :=
  List.insertionSort (fun a b : String => a ≤ b) (distinct_colos l)

/-- The records emitted for one colo group (lines 183-185): the group's
addresses paired with their 1-based `enumerate` index. -/
def chunkRecords (l : List (String × String)) (c : String) : List (String × String × Nat) :=
  (List.enumFrom 1 (groupIps c l)).map (fun p => (p.2, c, p.1))

/-- All emitted records, groups in sorted colo order (lines 181-185). -/
def emitRecords (l : List (String × String)) : List (String × String × Nat) :=
  (sorted_colos l).flatMap (chunkRecords l)

/-- One output line, `f"{ip}#{colo} {idx}\n"` (line 185). -/
def emitLine (r : String × String × Nat) : String :=
  r.1 ++ "#" ++ r.2.1 ++ " " ++ Nat.repr r.2.2 ++ "\n"

/-- The full report written to the output file, one line per record. -/
def writeReport (l : List (String × String)) : List String :=
  (emitRecords l).map emitLine

/-- End-to-end: collection loop, truncation, sort, grouping, emission. -/
def finalRecords (probes : List (String × NetResult)) (targets : Option (List String))
    (quota : Nat) : List (String × String × Nat) :=
  emitRecords (aggregate (runScan probes targets quota).matched quota)

/-- The spec's well-formedness shape for a location code: exactly three
uppercase letters. -/
def is3Upper (s : String) : Bool :=
  s.data.length = 3 && s.data.all (fun c => c.isUpper)

/-- The configured concurrency maximum (line 1). -/
def MAX_CONCURRENT_THREADS : Nat := 1000

/-- Embeds `max_workers = min(MAX_CONCURRENT_THREADS, len(all_ips))`
(line 130). -/
def max_workers (candidates : List String) : Nat :=
  min MAX_CONCURRENT_THREADS candidates.length

/-- Modelled from the Python standard library (not part of src/):
`ThreadPoolExecutor(max_workers=n)` raises
`ValueError("max_workers must be greater than 0")` when `n <= 0` and
otherwise constructs the pool.  CFTest.py line 132 calls it without catching
the error. -/
def threadPoolInit (n : Nat) : Except String Unit :=
  if n = 0 then Except.error "max_workers must be greater than 0" else Except.ok ()

/-- Embeds main's quota validation (lines 98-104): `args.i <= 0` raises a
`ValueError` that is caught, printed, and turned into `sys.exit(1)`. -/
def validate_quota (i : Int) : Except Nat Int :=
  if i ≤ 0 then Except.error 1 else Except.ok i

/-- Main's startup, instrumented: the second component records whether the
range fetch (the first network activity, line 110) is reached.  It sits
after the quota validation, so a failed validation exits with status 1
before any network use. -/
def mainPrelude (i : Int) : Except Nat Int × Bool :=
  match validate_quota i with
  | Except.error c => (Except.error c, false)
  | Except.ok q => (Except.ok q, true)

/-! ### Helper lemmas -/

/-- Soundness of a `Matched` probe outcome: the address echoed is the probed
one, the code is non-empty, and when the target list is non-empty the code is
literally a member of it (lines 81-84 of the source). -/
theorem check_some_sound {ip : String} {ts : Option (List String)} {stop : Bool}
    {net : NetResult} {a c : String}
    (h : check_ip_location ip ts stop net = some (a, c)) :
    a = ip ∧ c ≠ "" ∧ ∀ l, ts = some l → l ≠ [] → c ∈ l := by
  unfold check_ip_location check_ip_location_traced at h
  repeat' split at h
  all_goals simp at h
  rename_i hcond colo c' heq hne
  obtain ⟨ha, hc⟩ := h
  subst ha
  subst hc
  refine ⟨rfl, hne, ?_⟩
  intro l hl hlne
  subst hl
  have htt : tsTruthy (some l) = true := by
    simp [tsTruthy, List.isEmpty_iff, hlne]
  rw [htt] at hcond
  rw [heq] at hcond
  simp only [Bool.true_and, Bool.not_eq_true, Bool.not_eq_false,
    colo_in_targets, Option.getD_some] at hcond
  simpa using hcond

/-- The match list built by the collection loop only ever holds entries whose
colo passed the probe's membership test. -/
theorem runScan_matched_sound (ts : List String) (hts : ts ≠ []) (quota : Nat)
    (probes : List (String × NetResult)) :
    ∀ m ∈ (runScan probes (some ts) quota).matched, m.2 ∈ ts := by
  have key : ∀ (st : ScanSt), (∀ m ∈ st.matched, m.2 ∈ ts) →
      ∀ m ∈ (probes.foldl (scanStep (some ts) quota) st).matched, m.2 ∈ ts := by
    induction probes with
    | nil => intro st h; simpa using h
    | cons p ps ih =>
      intro st hst
      rw [List.foldl_cons]
      apply ih
      intro m hm
      unfold scanStep at hm
      split at hm
      · exact hst m hm
      · split at hm
        · exact hst m (by simpa using hm)
        · next m' hck =>
          split at hm <;>
          · simp only at hm
            rcases List.mem_append.mp hm with h | h
            · exact hst m h
            · rw [List.mem_singleton] at h
              subst h
              obtain ⟨-, -, hmem⟩ := check_some_sound hck
              exact hmem ts rfl hts
  exact key ⟨0, [], false⟩ (by simp)

/-- Aggregation only rearranges or drops entries of the match list. -/
theorem mem_of_mem_aggregate {l : List (String × String)} {q : Nat}
    {e : String × String} (h : e ∈ aggregate l q) : e ∈ l := by
  unfold aggregate sortByIp at h
  have h2 := (List.perm_insertionSort ipPairLe _).mem_iff.mp h
  unfold truncateMatches at h2
  split at h2
  · exact List.mem_of_mem_take h2
  · exact h2

/-- The colo of every emitted record is the colo of some match-list entry. -/
theorem colo_of_mem_emitRecords {l : List (String × String)} {r : String × String × Nat}
    (h : r ∈ emitRecords l) : r.2.1 ∈ l.map Prod.snd := by
  unfold emitRecords at h
  rw [List.mem_flatMap] at h
  obtain ⟨c, hc, hr⟩ := h
  unfold chunkRecords at hr
  rw [List.mem_map] at hr
  obtain ⟨p, -, rfl⟩ := hr
  unfold sorted_colos at hc
  have : c ∈ distinct_colos l := (List.perm_insertionSort _ _).mem_iff.mp hc
  simpa [distinct_colos, List.mem_dedup] using this

/-- Every record of a colo chunk carries that colo. -/
theorem chunk_colo_eq {l : List (String × String)} {c : String} {r : String × String × Nat}
    (h : r ∈ chunkRecords l c) : r.2.1 = c := by
  unfold chunkRecords at h
  rw [List.mem_map] at h
  obtain ⟨p, -, rfl⟩ := h
  rfl

/-- The addresses of a colo chunk are exactly the group's addresses. -/
theorem chunk_map_fst (l : List (String × String)) (c : String) :
    (chunkRecords l c).map (fun r => r.1) = groupIps c l := by
  unfold chunkRecords
  rw [List.map_map]
  exact List.enumFrom_map_snd 1 _

/-- The indices of a colo chunk are `1, 2, ...` up to the group size. -/
theorem chunk_map_idx (l : List (String × String)) (c : String) :
    (chunkRecords l c).map (fun r => r.2.2) = List.range' 1 (groupIps c l).length := by
  unfold chunkRecords
  rw [List.map_map]
  exact List.enumFrom_map_fst 1 _

theorem chunk_filter_self (l : List (String × String)) (c : String) :
    (chunkRecords l c).filter (fun r => r.2.1 == c) = chunkRecords l c := by
  rw [List.filter_eq_self]
  intro r hr
  simp [chunk_colo_eq hr]

theorem chunk_filter_ne {l : List (String × String)} {k c : String} (h : k ≠ c) :
    (chunkRecords l k).filter (fun r => r.2.1 == c) = [] := by
  rw [List.filter_eq_nil_iff]
  intro r hr
  simp [chunk_colo_eq hr, h]

/-- Filtering the emitted records down to one colo recovers at most the
chunk of that colo, provided the colo keys are distinct. -/
theorem filter_flatMap_chunk (l : List (String × String)) (c : String) :
    ∀ ks : List String, ks.Nodup →
      ((ks.flatMap (chunkRecords l)).filter (fun r => r.2.1 == c)) =
        if c ∈ ks then chunkRecords l c else [] := by
  intro ks
  induction ks with
  | nil => intro _; simp
  | cons k ks ih =>
    intro hnd
    rw [List.flatMap_cons, List.filter_append, ih hnd.of_cons]
    by_cases hkc : k = c
    · subst hkc
      have hk : k ∉ ks := (List.nodup_cons.mp hnd).1
      rw [chunk_filter_self]
      simp [hk]
    · rw [chunk_filter_ne hkc]
      simp [List.mem_cons, Ne.symm hkc]

theorem sorted_colos_nodup (l : List (String × String)) : (sorted_colos l).Nodup := by
  unfold sorted_colos
  exact ((List.perm_insertionSort _ _).nodup_iff).mpr (List.nodup_dedup _)

theorem not_mem_sorted_colos {l : List (String × String)} {c : String}
    (h : c ∉ sorted_colos l) : c ∉ l.map Prod.snd := by
  intro hmem
  apply h
  unfold sorted_colos
  rw [(List.perm_insertionSort _ _).mem_iff]
  simpa [distinct_colos, List.mem_dedup] using hmem

theorem groupIps_eq_nil_of_not_mem {l : List (String × String)} {c : String}
    (h : c ∉ l.map Prod.snd) : groupIps c l = [] := by
  unfold groupIps
  have : l.filter (fun p => p.2 == c) = [] := by
    rw [List.filter_eq_nil_iff]
    intro p hp hbeq
    rw [beq_iff_eq] at hbeq
    exact h (hbeq ▸ List.mem_map_of_mem Prod.snd hp)
  rw [this, List.map_nil]

/-- The colo projection of the emitted records is weakly increasing: groups
appear in lexicographic order of their codes. -/
theorem emit_colos_sorted (l : List (String × String)) :
    List.Sorted (fun a b : String => a ≤ b) ((emitRecords l).map (fun r => r.2.1)) := by
  unfold emitRecords
  have hs : List.Sorted (fun a b : String => a ≤ b) (sorted_colos l) :=
    List.sorted_insertionSort _ _
  show List.Pairwise _ _
  rw [List.pairwise_map, List.pairwise_flatMap]
  constructor
  · intro k _
    exact List.pairwise_of_forall_mem_list (fun a ha b hb => by
      rw [chunk_colo_eq ha, chunk_colo_eq hb])
  · exact hs.imp (fun {k1 k2} hle x hx y hy => by
      rw [chunk_colo_eq hx, chunk_colo_eq hy]; exact hle)

/-- Each colo group inherits the address order of the (sorted) match list. -/
theorem groupIps_sorted {l : List (String × String)} (hs : List.Sorted ipPairLe l)
    (c : String) :
    List.Sorted (fun a b : String => ipKey a ≤ ipKey b) (groupIps c l) := by
  unfold groupIps
  show List.Pairwise _ _
  rw [List.pairwise_map]
  exact (List.Pairwise.sublist (List.filter_sublist l) hs).imp (fun h => h)

/-! ### Claim theorems -/

/-- Claim C1: a probe that yields a `Matched` outcome satisfies: when the
target set is empty or absent, any attempted address whose successful
response carries a `colo=<CODE>` line (non-empty code) is matched with that
code; when the target set is non-empty, the extracted code is a member of the
target set, hence also a member under case-insensitive comparison (code and
set uppercased). -/
theorem c1_matched_outcomes (ip : String) (ts : Option (List String)) (net : NetResult) :
    (tsTruthy ts = false → ∀ body c, net = NetResult.success body →
      extractColo body = some c → c ≠ "" → (parseIPv4 ip).isSome = true →
      check_ip_location ip ts false net = some (ip, c))
    ∧ (∀ a c l, check_ip_location ip ts false net = some (a, c) → ts = some l →
      l ≠ [] → c ∈ l ∧ upperStr c ∈ l.map upperStr) := by
  constructor
  · intro hts body c hnet hcolo hc hparse
    subst hnet
    have hn : (parseIPv4 ip).isNone = false := by
      cases hp : parseIPv4 ip
      · rw [hp] at hparse; simp at hparse
      · rfl
    unfold check_ip_location check_ip_location_traced
    simp [hn, hts, hcolo, hc]
  · intro a c l h hl hne
    obtain ⟨-, -, hmem⟩ := check_some_sound h
    have hc := hmem l hl hne
    exact ⟨hc, List.mem_map_of_mem upperStr hc⟩

/-- Witness for C1 at a concrete probe. -/
theorem c1_matched_outcomes_witness :
    check_ip_location "1.1.1.1" none false (NetResult.success "colo=LAX") =
      some ("1.1.1.1", "LAX")
    ∧ ("LAX" ∈ ["LAX"] ∧ upperStr "LAX" ∈ (["LAX"] : List String).map upperStr) := by
  constructor
  · exact (c1_matched_outcomes "1.1.1.1" none (NetResult.success "colo=LAX")).1 rfl
      "colo=LAX" "LAX" rfl (by decide) (by decide) (by decide)
  · exact (c1_matched_outcomes "1.1.1.1" (some ["LAX"]) (NetResult.success "colo=LAX")).2
      "1.1.1.1" "LAX" ["LAX"] (by decide) rfl (by decide)

/-- Claim C2: the aggregation step truncates the completion-ordered match
list to its first `quota` entries (dropping from the tail) and then sorts
ascending by numeric address value; the result's length is at most the
quota and it is a permutation of the kept earliest entries. -/
theorem c2_truncate_then_sort (l : List (String × String)) (q : Nat) (hq : 0 < q) :
    aggregate l q = sortByIp (l.take q)
    ∧ List.Sorted ipPairLe (aggregate l q)
    ∧ (aggregate l q).length ≤ q
    ∧ (aggregate l q).Perm (l.take q) := by
  have htr : truncateMatches l q = l.take q := by
    unfold truncateMatches
    split
    · rfl
    · next h => exact (List.take_of_length_le (Nat.le_of_not_lt h)).symm
  have hperm : (aggregate l q).Perm (l.take q) := by
    unfold aggregate sortByIp
    rw [htr]
    exact List.perm_insertionSort _ _
  refine ⟨by unfold aggregate; rw [htr], ?_, ?_, hperm⟩
  · unfold aggregate sortByIp
    exact List.sorted_insertionSort _ _
  · rw [hperm.length_eq, List.length_take]
    exact min_le_left _ _

/-- Witness for C2 at a concrete overshooting match list. -/
theorem c2_truncate_then_sort_witness :
    0 < 1 ∧ (aggregate [("1.1.1.2", "AAA"), ("1.1.1.1", "BBB")] 1).length ≤ 1 :=
  ⟨by decide, (c2_truncate_then_sort [("1.1.1.2", "AAA"), ("1.1.1.1", "BBB")] 1 (by decide)).2.2.1⟩

/-- Claim C3: for a sorted match list, the emitted report lists colo groups
in lexicographic order of code; within each group the addresses appear in the
ascending numeric order established by the sort, with 1-based indices that
restart at 1 per group and increase by 1 with no gaps; each record is
serialized on its own line as `<address>#<locationCode> <groupIndex>`. -/
theorem c3_report_format (l : List (String × String)) (hs : List.Sorted ipPairLe l) :
    writeReport l = (emitRecords l).map emitLine
    ∧ (∀ r, r ∈ emitRecords l →
        emitLine r = r.1 ++ "#" ++ r.2.1 ++ " " ++ Nat.repr r.2.2 ++ "\n")
    ∧ List.Sorted (fun a b : String => a ≤ b) ((emitRecords l).map (fun r => r.2.1))
    ∧ (∀ c : String, ((emitRecords l).filter (fun r => r.2.1 == c)).map (fun r => r.1) =
        groupIps c l)
    ∧ (∀ c : String, ((emitRecords l).filter (fun r => r.2.1 == c)).map (fun r => r.2.2) =
        List.range' 1 (groupIps c l).length)
    ∧ (∀ c : String, List.Sorted (fun a b : String => ipKey a ≤ ipKey b) (groupIps c l)) := by
  refine ⟨rfl, fun r _ => rfl, emit_colos_sorted l, ?_, ?_, groupIps_sorted hs⟩
  · intro c
    unfold emitRecords
    rw [filter_flatMap_chunk l c _ (sorted_colos_nodup l)]
    by_cases hc : c ∈ sorted_colos l
    · rw [if_pos hc, chunk_map_fst]
    · rw [if_neg hc, List.map_nil,
        groupIps_eq_nil_of_not_mem (not_mem_sorted_colos hc)]
  · intro c
    unfold emitRecords
    rw [filter_flatMap_chunk l c _ (sorted_colos_nodup l)]
    by_cases hc : c ∈ sorted_colos l
    · rw [if_pos hc, chunk_map_idx]
    · rw [if_neg hc, List.map_nil,
        groupIps_eq_nil_of_not_mem (not_mem_sorted_colos hc)]
      rfl

/-- Witness for C3 at a concrete sorted match list. -/
theorem c3_report_format_witness :
    List.Sorted ipPairLe [("1.1.1.1", "BBB"), ("1.1.1.2", "AAA"), ("2.2.2.2", "AAA")]
    ∧ ((emitRecords [("1.1.1.1", "BBB"), ("1.1.1.2", "AAA"), ("2.2.2.2", "AAA")]).filter
        (fun r => r.2.1 == "AAA")).map (fun r => r.1) =
      groupIps "AAA" [("1.1.1.1", "BBB"), ("1.1.1.2", "AAA"), ("2.2.2.2", "AAA")] :=
  ⟨by decide, (c3_report_format _ (by decide)).2.2.2.1 "AAA"⟩

/-- Claim C4: a probe entered with the cancellation flag already set performs
no network request and returns `None` immediately; and once the flag is set
the coordinator's loop has exited, so such a unit is neither counted as
completed nor recorded as any outcome — it is never treated as a `NoMatch`
completion. -/
theorem c4_cancelled_before_start (ip : String) (ts : Option (List String)) (net : NetResult) :
    check_ip_location_traced ip ts true net = (none, false)
    ∧ (∀ (targets : Option (List String)) (quota : Nat) (st : ScanSt)
        (p : String × NetResult), st.stopped = true → scanStep targets quota st p = st) := by
  constructor
  · simp [check_ip_location_traced]
  · intro targets quota st p h
    unfold scanStep
    rw [if_pos h]

/-- Witness for C4 at a concrete cancelled probe and stopped state. -/
theorem c4_cancelled_before_start_witness :
    check_ip_location_traced "1.1.1.1" none true NetResult.failure = (none, false)
    ∧ scanStep none 1 ⟨0, [], true⟩ ("1.1.1.1", NetResult.failure) = ⟨0, [], true⟩ :=
  ⟨(c4_cancelled_before_start "1.1.1.1" none NetResult.failure).1,
   (c4_cancelled_before_start "1.1.1.1" none NetResult.failure).2 none 1 ⟨0, [], true⟩
     ("1.1.1.1", NetResult.failure) rfl⟩

/-- Claim C5: an invalid address, any transport failure, and a response with
no `colo=` line all yield `NoMatch` (`None`) from the probe; the probe is a
total function, so no error ever escapes it. -/
theorem c5_failures_swallowed (ip : String) (ts : Option (List String)) (net : NetResult)
    (h : parseIPv4 ip = none ∨ net = NetResult.failure ∨
      ∃ body, net = NetResult.success body ∧ extractColo body = none) :
    check_ip_location ip ts false net = none := by
  unfold check_ip_location check_ip_location_traced
  rcases h with h | h | ⟨body, rfl, hb⟩
  · simp [h]
  · subst h
    by_cases hip : (parseIPv4 ip).isNone <;> simp [hip]
  · by_cases hip : (parseIPv4 ip).isNone
    · simp [hip]
    · by_cases htt : tsTruthy ts <;> simp [hip, htt, hb, colo_in_targets]

/-- Witness for C5 at a concrete transport failure. -/
theorem c5_failures_swallowed_witness :
    check_ip_location "1.1.1.1" (some ["LAX"]) false NetResult.failure = none :=
  c5_failures_swallowed "1.1.1.1" (some ["LAX"]) NetResult.failure (Or.inr (Or.inl rfl))

/-- Claim C6: the worker-pool size is `min(1000, number of candidates)`, so
it never exceeds the configured maximum nor the candidate count. -/
theorem c6_concurrency_cap (candidates : List String) :
    max_workers candidates = min 1000 candidates.length
    ∧ max_workers candidates ≤ 1000
    ∧ max_workers candidates ≤ candidates.length :=
  ⟨rfl, min_le_left _ _, min_le_right _ _⟩

/-- Claim C7: the deduplicated candidate pool contains exactly the union of
the ranges' expansions, with no duplicates, and a range that fails to parse
expands to nothing without affecting the others. -/
theorem c7_address_space (ranges : List String) :
    (all_ips ranges).Nodup
    ∧ (∀ a, a ∈ all_ips ranges ↔ ∃ r ∈ ranges, a ∈ expand_ip_range r)
    ∧ (∀ r, parseNetwork r = none → expand_ip_range r = []) := by
  refine ⟨List.nodup_dedup _, ?_, ?_⟩
  · intro a
    simp [all_ips, List.mem_dedup, List.mem_flatMap]
  · intro r h
    simp [expand_ip_range, h]

/-- Witness for C7: a malformed range expands to nothing while the valid
range's pool stays deduplicated. -/
theorem c7_address_space_witness :
    parseNetwork "300.1.2.3/8" = none
    ∧ expand_ip_range "300.1.2.3/8" = []
    ∧ (all_ips ["1.2.3.4/31", "300.1.2.3/8"]).Nodup :=
  ⟨by decide, (c7_address_space ["1.2.3.4/31", "300.1.2.3/8"]).2.2 "300.1.2.3/8" (by decide),
   (c7_address_space ["1.2.3.4/31", "300.1.2.3/8"]).1⟩

/-- Claim C8 (amended): every record of the final result set has a location
code that, when the target set is non-empty, is a member of the target set.
(The further shape constraint of the original claim fails, see the
counterexample.) -/
theorem c8_result_codes_in_targets (probes : List (String × NetResult)) (ts : List String)
    (q : Nat) (r : String × String × Nat)
    (hr : r ∈ finalRecords probes (some ts) q) (hts : ts ≠ []) :
    r.2.1 ∈ ts := by
  unfold finalRecords at hr
  have h1 := colo_of_mem_emitRecords hr
  rw [List.mem_map] at h1
  obtain ⟨e, he, hsnd⟩ := h1
  have h2 := mem_of_mem_aggregate he
  have h3 := runScan_matched_sound ts hts q probes e h2
  rwa [hsnd] at h3

/-- Witness for C8 at a concrete scan. -/
theorem c8_result_codes_in_targets_witness :
    ("1.1.1.1", "LAX", 1) ∈
      finalRecords [("1.1.1.1", NetResult.success "colo=LAX")] (some ["LAX"]) 1
    ∧ "LAX" ∈ ["LAX"] :=
  ⟨by decide,
   c8_result_codes_in_targets [("1.1.1.1", NetResult.success "colo=LAX")] ["LAX"] 1
     ("1.1.1.1", "LAX", 1) (by decide) (by decide)⟩

/-- Counterexample to C8 as stated: with an empty target set, a response
line `colo=ab` produces a final record whose location code `ab` is not a
3-letter uppercase string — no shape check exists in the code. -/
theorem c8_counterexample :
    finalRecords [("1.1.1.1", NetResult.success "colo=ab")] none 1 = [("1.1.1.1", "ab", 1)]
    ∧ is3Upper "ab" = false := by
  constructor
  · decide
  · decide

/-- Claim C9: a zero or negative quota makes main exit with status 1 before
the range fetch — the first network activity — is reached. -/
theorem c9_invalid_quota_fatal (i : Int) (h : i ≤ 0) :
    mainPrelude i = (Except.error 1, false) ∧ (1 : Nat) ≠ 0 := by
  refine ⟨?_, one_ne_zero⟩
  unfold mainPrelude validate_quota
  rw [if_pos h]

/-- Witness for C9 at quota zero. -/
theorem c9_invalid_quota_fatal_witness :
    mainPrelude 0 = (Except.error 1, false) :=
  (c9_invalid_quota_fatal 0 (by decide)).1

/-- Claim C10: an empty candidate pool gives `min(1000, 0) = 0` workers and
the thread-pool constructor then raises, aborting the scan; with at least
one candidate the constructor succeeds. -/
theorem c10_empty_pool_aborts (candidates : List String) (h : candidates = []) :
    max_workers candidates = 0
    ∧ threadPoolInit (max_workers candidates) =
        Except.error "max_workers must be greater than 0"
    ∧ (∀ c : List String, c ≠ [] → threadPoolInit (max_workers c) = Except.ok ()) := by
  subst h
  refine ⟨rfl, rfl, ?_⟩
  intro c hc
  have hne : max_workers c ≠ 0 := by
    unfold max_workers MAX_CONCURRENT_THREADS
    simp [Nat.min_eq_zero_iff, List.length_eq_zero, hc]
  unfold threadPoolInit
  rw [if_neg hne]

/-- Witness for C10 at the empty pool. -/
theorem c10_empty_pool_aborts_witness :
    max_workers ([] : List String) = 0
    ∧ threadPoolInit (max_workers ([] : List String)) =
        Except.error "max_workers must be greater than 0" :=
  ⟨(c10_empty_pool_aborts [] rfl).1, (c10_empty_pool_aborts [] rfl).2.1⟩
